import Mathlib

/-
Verification development for the webarchive lead generator.

Shallow embedding of:
  src/utils/date.ts          (parseCalendarDate, formatIdentifier, createTimestamp)
  src/RateLimitedFetcher.ts  (config defaults, waitForRateLimit + fetch admission
                              timeline, the retry loop of fetch)
  src/ContentAnalyser.ts     (fetchContent error swallowing)
  src/WebScraper.ts          (the change-detection scan of analyzeWebsiteHistory,
                              shouldRecommendUpdate, result assembly)

JavaScript numbers are modelled as exact rationals (the similarity scores and
thresholds compared here are far from double rounding boundaries), epoch
timestamps as integers, and decimal digit-string slicing as division/modulus
on the represented value.
-/

/-! ## utils/date.ts -/

/-- Source `parseCalendarDate`: the value is rendered as a 4-digit zero padded
decimal string, the first two characters are the month, the rest the day.
For values below 10000 (the 4-digit domain) that slicing is division and
remainder by 100, which is how we model it. -/
def parseCalendarDate (value : Nat) : Nat × Nat :=
  (value / 100, value % 100)

/-- Gregorian leap-year rule, as implemented by the JS Date calendar. -/
def isLeapYear (year : Nat) : Bool :=
  (year % 4 == 0 && year % 100 != 0) || year % 400 == 0

/-- Day count of a calendar month, as implemented by the JS Date calendar. -/
def daysInMonth (year month : Nat) : Nat :=
  if month = 2 then (if isLeapYear year then 29 else 28)
  else if month = 4 ∨ month = 6 ∨ month = 9 ∨ month = 11 then 30
  else 31

/-- A calendar instant by components, the denotation of a JS `Date` built from
in-range calendar components. -/
structure CalInstant where
  year : Nat
  month : Nat
  day : Nat
  hours : Nat
  minutes : Nat
  seconds : Nat
deriving DecidableEq

/-- Source `formatIdentifier`: the `YYYYMMDD` digit string with 2-padded month
and day, modelled as the number it denotes (faithful for 4-digit years and
month, day below 100). -/
def formatIdentifier (year month day : Nat) : Nat :=
  year * 10000 + month * 100 + day

/-- Source `createTimestamp`: splits the 8-character identifier into year,
month and day, the 6-digit padded time code into hours, minutes and seconds,
and builds `new Date(year, month - 1, day, hours, minutes, seconds)`.
We model the calendar instant that Date denotes; since the JS constructor
silently normalises out-of-range components, the model is restricted to
in-range components and returns `none` outside them. -/
def createTimestamp (date : Nat) (time : Nat) : Option CalInstant :=
  let year := date / 10000
  let month := (date / 100) % 100
  let day := date % 100
  let hours := time / 10000
  let minutes := (time / 100) % 100
  let seconds := time % 100
  if 1 ≤ month ∧ month ≤ 12 ∧ 1 ≤ day ∧ day ≤ daysInMonth year month ∧
      hours ≤ 23 ∧ minutes ≤ 59 ∧ seconds ≤ 59 then
    some ⟨year, month, day, hours, minutes, seconds⟩
  else
    none

/-! ## RateLimitedFetcher.ts -/

/-- Source `RateLimiterConfig`. -/
structure RateLimiterConfig where
  maxRequestsPerMinute : Nat
  retryAttempts : Nat
  retryDelay : Nat
deriving DecidableEq

/-- A `Partial<RateLimiterConfig>` argument: each field optionally present. -/
structure RateLimiterConfigInput where
  maxRequestsPerMinute : Option Nat
  retryAttempts : Option Nat
  retryDelay : Option Nat
deriving DecidableEq

/-- Source constructor of `RateLimitedFetcher`: spreads the supplied fields
over the defaults `{maxRequestsPerMinute: 15, retryAttempts: 3,
retryDelay: 5000}`; the whole argument is optional. -/
def mkRateLimiterConfig (config : Option RateLimiterConfigInput) : RateLimiterConfig :=
  match config with
  | none => ⟨15, 3, 5000⟩
  | some c =>
    ⟨c.maxRequestsPerMinute.getD 15, c.retryAttempts.getD 3, c.retryDelay.getD 5000⟩

/-- The purge in `waitForRateLimit`: keep timestamps strictly newer than
`now - 60000`. -/
def purgeWindow (ts : List Int) (now : Int) : List Int :=
  ts.filter (fun t => decide (now - 60000 < t))

/-- One admission through `waitForRateLimit` followed by the timestamp push at
the top of `fetch`, under idealised timing (the clock reads `now` throughout
the check and advances exactly by the sleep).  After the purge: if the kept
count is below the maximum, push `now` immediately; otherwise read the first
kept timestamp, wait `60000 - (now - oldest)` when positive, and push at the
woken-up time.  When the kept list is empty (possible only with a maximum of
0) the JS code reads `requestTimestamps[0]` as `undefined`, the wait computes
to NaN, the `> 0` guard fails and the push happens at `now`.
Returns the new timestamp list and the issuance time. -/
def admitOne (maxReq : Nat) (ts : List Int) (now : Int) : List Int × Int :=
  if maxReq ≤ (purgeWindow ts now).length then
    match purgeWindow ts now with
    | [] => (purgeWindow ts now ++ [now], now)
    | oldest :: _ =>
      if 0 < 60000 - (now - oldest) then
        (purgeWindow ts now ++ [now + (60000 - (now - oldest))],
          now + (60000 - (now - oldest)))
      else
        (purgeWindow ts now ++ [now], now)
  else
    (purgeWindow ts now ++ [now], now)

/-- Sequential admissions through one fetcher: each request arrives at its
listed time or as soon as the previous admission completed, whichever is
later (sequential issuance means a call starts only after the previous one
returned).  Returns the timeline of recorded issuance timestamps. -/
def runAdmissions (maxReq : Nat) : List Int → List Int → Int → List Int
  | [], _, _ => []
  | a :: rest, ts, lastIssue =>
    (admitOne maxReq ts (max a lastIssue)).2 ::
      runAdmissions maxReq rest
        (admitOne maxReq ts (max a lastIssue)).1
        (admitOne maxReq ts (max a lastIssue)).2

/-- Membership of a timestamp in the trailing 60000 ms window ending at
`w + 60000`, half open on the left to match the purge's strict comparison
(an entry exactly 60000 ms old counts as expired). -/
def inWindow (w t : Int) : Bool :=
  decide (w < t) && decide (t ≤ w + 60000)

/-- Number of recorded timestamps inside the trailing window `(w, w + 60000]`. -/
def countWindow (l : List Int) (w : Int) : Nat :=
  (l.filter (inWindow w)).length

/-- Outcome of one underlying attempt inside `fetch`: a successful response
body, a thrown error (network failure or the `HTTP error!` thrown on non-ok
status), or a 429 response with its optional Retry-After hint. -/
inductive FetchOutcome where
  | success (body : String)
  | failure (err : String)
  | rateLimited (retryAfterSec : Option Nat)
deriving DecidableEq

/-- Error raised by `fetch` after the loop ends: the last captured error, or
the synthesized `Failed to fetch ... after N attempts` error when no error
was captured. -/
inductive FetchError where
  | cause (err : String)
  | exhausted (url : String)
deriving DecidableEq

/-- The retry loop of `fetch`: `remaining` iterations left, `attempt` the
current zero-based attempt index, `lastError` the last captured error.
A success returns immediately; a 429 sleeps and continues without recording
an error; a thrown error is recorded, a backoff sleep happens if attempts
remain, and the loop continues.  When the attempt budget is exhausted the
last error (or the synthesized one) is raised.  Sleep durations do not
affect the returned value and are elided; the admission timeline is modelled
separately by `runAdmissions`.  Returns the result and the number of
attempts that were issued. -/
def fetchLoop (behavior : Nat → FetchOutcome) (url : String) :
    Nat → Nat → Option String → Except FetchError String × Nat
  | 0, attempt, lastError =>
    (Except.error (match lastError with
      | some e => FetchError.cause e
      | none => FetchError.exhausted url), attempt)
  | remaining + 1, attempt, lastError =>
    match behavior attempt with
    | FetchOutcome.success body => (Except.ok body, attempt + 1)
    | FetchOutcome.rateLimited _ => fetchLoop behavior url remaining (attempt + 1) lastError
    | FetchOutcome.failure e => fetchLoop behavior url remaining (attempt + 1) (some e)

/-- Source `fetch`: run the retry loop with the configured attempt budget. -/
def fetchModel (behavior : Nat → FetchOutcome) (config : RateLimiterConfig)
    (url : String) : Except FetchError String × Nat :=
  fetchLoop behavior url config.retryAttempts 0 none

/-! ## ContentAnalyser.ts -/

/-- Source `ContentAnalyzer.fetchContent`: on a successful transport result the
cleaned HTML is returned (`clean` abstracts the external `cleanHtml` text
extractor); on any thrown error the catch block logs and returns the empty
string — the error does not propagate. -/
def fetchContent (clean : String → String) (result : Except FetchError String) : String :=
  match result with
  | Except.ok html => clean html
  | Except.error _ => ""

/-! ## WebScraper.ts: the change-detection scan -/

/-- A resolved capture: epoch timestamp and, once scored, a similarity. -/
structure Snapshot where
  timestamp : Int
  similarity : Option ℚ
deriving DecidableEq

/-- One entry of `significantChanges`. -/
structure ChangeEvent where
  date : Int
  otherDate : Int
  similarityDrop : ℚ
deriving DecidableEq

/-- The mutable state of the backward scan in `analyzeWebsiteHistory`. -/
structure ScanState where
  significantChanges : List ChangeEvent
  similarSince : Option Int
  previousSimilarity : ℚ
  previousDate : Int
deriving DecidableEq

/-- One iteration of the backward loop (lines 78-98 of WebScraper.ts).  The
guard `if (capture.similarity)` is JS truthiness: an undefined score and a
score of exactly 0 are both skipped.  For a processed score `s`: an event is
pushed when `previousSimilarity - s > 0.15`, `similarSince` is overwritten
when `s >= threshold`, and the previous-similarity/previous-date registers
are updated. -/
def scanStep (threshold : ℚ) (st : ScanState) (c : Snapshot) : ScanState :=
  match c.similarity with
  | none => st
  | some s =>
    if s = 0 then st
    else
      { significantChanges :=
          if 0.15 < st.previousSimilarity - s then
            st.significantChanges ++ [⟨c.timestamp, st.previousDate, st.previousSimilarity - s⟩]
          else st.significantChanges
        similarSince := if threshold ≤ s then some c.timestamp else st.similarSince
        previousSimilarity := s
        previousDate := c.timestamp }

/-- Loop initialisation: no events, no similar-since date,
`previousSimilarity = 1`, `previousDate = new Date()` (the current time). -/
def initialScanState (now : Int) : ScanState :=
  ⟨[], none, 1, now⟩

/-- The whole backward scan: indices from the end of the ascending list down
to 0, i.e. a fold over the reversed list. -/
def detectChanges (threshold : ℚ) (now : Int) (captures : List Snapshot) : ScanState :=
  captures.reverse.foldl (scanStep threshold) (initialScanState now)

/-- The guard actually used by the code for the `similarSince` overwrite:
a defined, nonzero (JS-truthy) score meeting the threshold. -/
def truthyQualifies (threshold : ℚ) (c : Snapshot) : Bool :=
  match c.similarity with
  | some s => decide (¬ s = 0) && decide (threshold ≤ s)
  | none => false

/-- The spec's wording of qualification: a defined score meeting the
threshold (no nonzero requirement). -/
def meetsThreshold (threshold : ℚ) (c : Snapshot) : Bool :=
  match c.similarity with
  | some s => decide (threshold ≤ s)
  | none => false

/-- The walk-order subsequence of snapshots the loop actually processes:
defined, nonzero similarity, paired as (timestamp, score). -/
def truthySims (l : List Snapshot) : List (Int × ℚ) :=
  l.filterMap (fun c =>
    match c.similarity with
    | some s => if s = 0 then none else some (c.timestamp, s)
    | none => none)

/-- Adjacent-pair reading of the scan: each processed (timestamp, score) is
compared against the previous processed pair, an event is emitted exactly
when the drop exceeds 0.15, and the pair becomes the new previous pair. -/
def pairEvents (prevSim : ℚ) (prevDate : Int) : List (Int × ℚ) → List ChangeEvent
  | [] => []
  | (t, s) :: rest =>
    (if 0.15 < prevSim - s then [⟨t, prevDate, prevSim - s⟩] else []) ++ pairEvents s t rest

/-- The final previous-similarity/previous-date registers: the last processed
pair, or the initial values when nothing was processed. -/
def lastPair (prevSim : ℚ) (prevDate : Int) : List (Int × ℚ) → ℚ × Int
  | [] => (prevSim, prevDate)
  | (t, s) :: rest => lastPair s t rest

/-! ## WebScraper.ts: shouldRecommendUpdate -/

/-- A calendar date at day granularity.  The source compares `Date` values;
`similarSince` carries a capture's date and `twoYearsAgo` is today with the
year field lowered by 2 (`setFullYear(getFullYear() - 2)`), so the
comparison is modelled lexicographically on (year, month, day). -/
structure CalDate where
  year : Int
  month : Int
  day : Int
deriving DecidableEq

/-- JS `Date` order at day granularity: lexicographic on year, month, day. -/
def dateLt (a b : CalDate) : Bool :=
  decide (a.year < b.year) ||
    (decide (a.year = b.year) &&
      (decide (a.month < b.month) ||
        (decide (a.month = b.month) && decide (a.day < b.day))))

/-- The same order stated as a proposition, the spec's "more than 2 calendar
years before now" comparison target. -/
def dateLtProp (a b : CalDate) : Prop :=
  a.year < b.year ∨ (a.year = b.year ∧ (a.month < b.month ∨ (a.month = b.month ∧ a.day < b.day)))

/-- Source `shouldRecommendUpdate`: false when `similarSince` is null;
otherwise true iff `similarSince` is strictly before now-minus-2-years and
the average similarity is strictly above 0.85. -/
def shouldRecommendUpdate (now : CalDate) (similarSince : Option CalDate)
    (averageSimilarity : ℚ) : Bool :=
  match similarSince with
  | none => false
  | some d =>
    dateLt d ⟨now.year - 2, now.month, now.day⟩ && decide ((0.85 : ℚ) < averageSimilarity)

/-! ## WebScraper.ts: analyzeWebsiteHistory result assembly -/

/-- How a run of `analyzeWebsiteHistory` can fail.  The code itself can only
crash through the unguarded `captures[0].timestamp` on an empty list (a
TypeError on an undefined access); `insufficientData` is the explicit error
the specification requires there and is never produced by the code. -/
inductive RunError where
  | undefinedAccess
  | insufficientData
deriving DecidableEq

/-- The produced `AnalysisResult`. -/
structure AnalysisResult where
  url : String
  firstCapture : Int
  lastCapture : Int
  totalCaptures : Nat
  similarSince : Option Int
  similarityScore : ℚ
  significantChanges : List ChangeEvent
  recommendUpdate : Bool
deriving DecidableEq

/-- Lines 58-114 of `analyzeWebsiteHistory`, after the current content is in
hand.  `captures` carries each resolved capture's timestamp together with
the transport result of its content fetch; every capture is pushed with a
defined similarity because `compareSites` always returns a number.  `score`
abstracts the external string-similarity oracle and `recommend` the
Date-valued `shouldRecommendUpdate` (modelled separately at day granularity).
The unguarded `captures[0].timestamp` / `captures[captures.length - 1]`
accesses on an empty list are the `undefinedAccess` error. -/
def analyzeFromContent (clean : String → String) (score : String → String → ℚ)
    (recommend : Option Int → ℚ → Bool) (threshold : ℚ) (now : Int) (url : String)
    (currentContent : String) (captures : List (Int × Except FetchError String)) :
    Except RunError AnalysisResult :=
  let analyzed : List Snapshot :=
    captures.map (fun p => ⟨p.1, some (score currentContent (fetchContent clean p.2))⟩)
  let scan := detectChanges threshold now analyzed
  match captures.head?, captures.getLast? with
  | some c0, some cLast =>
    let avg := (analyzed.map (fun c => c.similarity.getD 0)).sum / (analyzed.length : ℚ)
    Except.ok
      { url := url
        firstCapture := c0.1
        lastCapture := cLast.1
        totalCaptures := captures.length
        similarSince := scan.similarSince
        similarityScore := avg
        significantChanges := scan.significantChanges
        recommendUpdate := recommend scan.similarSince avg }
  | _, _ => Except.error RunError.undefinedAccess

/-- Source `analyzeWebsiteHistory`: the current page's content goes through
`fetchContent` (which swallows transport failures into the empty string) and
the rest of the run proceeds from that content. -/
def analyzeWebsiteHistory (clean : String → String) (score : String → String → ℚ)
    (recommend : Option Int → ℚ → Bool) (threshold : ℚ) (now : Int) (url : String)
    (currentFetch : Except FetchError String)
    (captures : List (Int × Except FetchError String)) :
    Except RunError AnalysisResult :=
  analyzeFromContent clean score recommend threshold now url
    (fetchContent clean currentFetch) captures

/-! ## Helper lemmas -/

theorem daysInMonth_le_31 (year month : Nat) : daysInMonth year month ≤ 31 := by
  unfold daysInMonth
  split
  · split <;> omega
  · split <;> omega

/-! ## Claim theorems -/

/-- C1: the claim says an analysis run whose index yields zero snapshots raises
a fatal `InsufficientData` error instead of an out-of-range access.  The code
has no such guard: on an empty capture list it evaluates
`captures[0].timestamp`, an undefined access (a TypeError), which is a
different failure than the `InsufficientData` error the specification
requires.  This theorem evaluates the embedded run at the failing input. -/
theorem analyzeWebsiteHistory_empty_captures_undefined_access :
    analyzeWebsiteHistory id (fun _ _ => 1) (fun _ _ => false) 0.85 100 "u"
        (Except.ok "page") ([] : List (Int × Except FetchError String)) =
      Except.error RunError.undefinedAccess ∧
    RunError.undefinedAccess ≠ RunError.insufficientData := by
  exact ⟨rfl, by decide⟩

/-- C2 counterexample: the claim says a run whose current-page fetch fails
after all retries fails the whole run.  It does not: `fetchContent` catches
the exhausted transport error and returns the empty string, and the run
completes with an ordinary result. -/
theorem fetchContent_failure_not_fatal_cex :
    fetchContent id (Except.error (FetchError.cause "network down")) = "" ∧
    (analyzeWebsiteHistory id (fun _ _ => 1) (fun _ _ => false) 0.85 100 "u"
        (Except.error (FetchError.cause "network down"))
        [(5, Except.ok "body")]).isOk = true := by
  exact ⟨rfl, rfl⟩

/-- C2 amended: when the live fetch fails after all transport retries, the
error is swallowed inside `fetchContent`, which returns the empty string, and
`analyzeWebsiteHistory` continues exactly as if the current page's content
were the empty string — the run is not failed. -/
theorem analyzeWebsiteHistory_failed_current_fetch_substitutes_empty
    (clean : String → String) (score : String → String → ℚ)
    (recommend : Option Int → ℚ → Bool) (threshold : ℚ) (now : Int) (url : String)
    (e : FetchError) (captures : List (Int × Except FetchError String)) :
    fetchContent clean (Except.error e) = "" ∧
    analyzeWebsiteHistory clean score recommend threshold now url
        (Except.error e) captures =
      analyzeFromContent clean score recommend threshold now url "" captures := by
  exact ⟨rfl, rfl⟩

/-- C6: `shouldRecommendUpdate` is false on a null `similarSince`; on a
present date it is true exactly when that date lies strictly before now minus
2 calendar years and the average similarity strictly exceeds 0.85; boundary
instances at 2 years minus a day (false), 2 years and a day (true), and an
average of exactly 0.85 (false). -/
theorem shouldRecommendUpdate_boundary :
    (∀ (now : CalDate) (a : ℚ), shouldRecommendUpdate now none a = false) ∧
    (∀ (now d : CalDate) (a : ℚ),
      shouldRecommendUpdate now (some d) a = true ↔
        (dateLtProp d ⟨now.year - 2, now.month, now.day⟩ ∧ (0.85 : ℚ) < a)) ∧
    shouldRecommendUpdate ⟨2026, 10, 11⟩ (some ⟨2024, 10, 12⟩) 0.9 = false ∧
    shouldRecommendUpdate ⟨2026, 10, 11⟩ (some ⟨2024, 10, 10⟩) 0.9 = true ∧
    shouldRecommendUpdate ⟨2026, 10, 11⟩ (some ⟨2020, 1, 1⟩) 0.85 = false := by
  refine ⟨fun now a => rfl, fun now d a => ?_, ?_, ?_, ?_⟩
  · simp [shouldRecommendUpdate, dateLt, dateLtProp]
  · norm_num [shouldRecommendUpdate, dateLt]
  · norm_num [shouldRecommendUpdate, dateLt]
  · norm_num [shouldRecommendUpdate, dateLt]

/-- C9: decoding the compact MMDD encoding recovers the month and day, and
the calendar instant composed by `createTimestamp` from the
`formatIdentifier` identifier and an HHMMSS time code carries exactly the
components used to build them, for all valid 4-digit-year dates and times. -/
theorem date_encoding_roundtrip (year month day hours minutes seconds : Nat)
    (hy1 : 1000 ≤ year) (hy2 : year ≤ 9999) (hm1 : 1 ≤ month) (hm2 : month ≤ 12)
    (hd1 : 1 ≤ day) (hd2 : day ≤ daysInMonth year month)
    (hh : hours ≤ 23) (hmin : minutes ≤ 59) (hs : seconds ≤ 59) :
    parseCalendarDate (month * 100 + day) = (month, day) ∧
    createTimestamp (formatIdentifier year month day)
        (hours * 10000 + minutes * 100 + seconds) =
      some ⟨year, month, day, hours, minutes, seconds⟩ := by
  have hd31 : day ≤ 31 := le_trans hd2 (daysInMonth_le_31 year month)
  constructor
  · simp only [parseCalendarDate, Prod.mk.injEq]
    omega
  · simp only [createTimestamp, formatIdentifier]
    have e1 : (year * 10000 + month * 100 + day) / 10000 = year := by omega
    have e2 : ((year * 10000 + month * 100 + day) / 100) % 100 = month := by omega
    have e3 : (year * 10000 + month * 100 + day) % 100 = day := by omega
    have e4 : (hours * 10000 + minutes * 100 + seconds) / 10000 = hours := by omega
    have e5 : ((hours * 10000 + minutes * 100 + seconds) / 100) % 100 = minutes := by omega
    have e6 : (hours * 10000 + minutes * 100 + seconds) % 100 = seconds := by omega
    rw [e1, e2, e3, e4, e5, e6, if_pos]
    exact ⟨hm1, hm2, hd1, hd2, hh, hmin, hs⟩

/-- C9 witness: the round trip evaluated at 2024-02-29 23:59:59. -/
theorem date_encoding_roundtrip_witness :
    parseCalendarDate (2 * 100 + 29) = (2, 29) ∧
    createTimestamp (formatIdentifier 2024 2 29) (23 * 10000 + 59 * 100 + 59) =
      some ⟨2024, 2, 29, 23, 59, 59⟩ :=
  date_encoding_roundtrip 2024 2 29 23 59 59 (by decide) (by decide) (by decide)
    (by decide) (by decide) (by decide) (by decide) (by decide) (by decide)

/-- C10: a fetcher built with no configuration uses
`{maxRequestsPerMinute: 15, retryAttempts: 3, retryDelay: 5000}`, and with a
partial configuration each absent field keeps its default while each supplied
field overrides it. -/
theorem rateLimiterConfig_defaults :
    mkRateLimiterConfig none = ⟨15, 3, 5000⟩ ∧
    (∀ c : RateLimiterConfigInput,
      (c.maxRequestsPerMinute = none →
        (mkRateLimiterConfig (some c)).maxRequestsPerMinute = 15) ∧
      (∀ v, c.maxRequestsPerMinute = some v →
        (mkRateLimiterConfig (some c)).maxRequestsPerMinute = v)) ∧
    (∀ c : RateLimiterConfigInput,
      (c.retryAttempts = none → (mkRateLimiterConfig (some c)).retryAttempts = 3) ∧
      (∀ v, c.retryAttempts = some v → (mkRateLimiterConfig (some c)).retryAttempts = v)) ∧
    (∀ c : RateLimiterConfigInput,
      (c.retryDelay = none → (mkRateLimiterConfig (some c)).retryDelay = 5000) ∧
      (∀ v, c.retryDelay = some v → (mkRateLimiterConfig (some c)).retryDelay = v)) := by
  refine ⟨rfl, fun c => ⟨fun h => ?_, fun v h => ?_⟩, fun c => ⟨fun h => ?_, fun v h => ?_⟩,
    fun c => ⟨fun h => ?_, fun v h => ?_⟩⟩ <;>
    simp [mkRateLimiterConfig, h]

/-- C10 witness: a configuration supplying only `maxRequestsPerMinute`
overrides it and keeps the other defaults. -/
theorem rateLimiterConfig_defaults_witness :
    (mkRateLimiterConfig (some ⟨some 10, none, none⟩)).maxRequestsPerMinute = 10 ∧
    (mkRateLimiterConfig (some ⟨some 10, none, none⟩)).retryAttempts = 3 ∧
    (mkRateLimiterConfig (some ⟨some 10, none, none⟩)).retryDelay = 5000 :=
  ⟨(rateLimiterConfig_defaults.2.1 ⟨some 10, none, none⟩).2 10 rfl,
    (rateLimiterConfig_defaults.2.2.1 ⟨some 10, none, none⟩).1 rfl,
    (rateLimiterConfig_defaults.2.2.2 ⟨some 10, none, none⟩).1 rfl⟩

theorem scanStep_similarSince (threshold : ℚ) (st : ScanState) (c : Snapshot) :
    (scanStep threshold st c).similarSince =
      if truthyQualifies threshold c then some c.timestamp else st.similarSince := by
  unfold scanStep truthyQualifies
  cases hs : c.similarity with
  | none => simp
  | some s =>
    by_cases h0 : s = 0
    · simp [h0]
    · by_cases ht : threshold ≤ s
      · simp [h0, ht]
      · simp [h0, ht]

theorem foldl_scanStep_similarSince (threshold : ℚ) :
    ∀ (m : List Snapshot) (st : ScanState),
      (m.foldl (scanStep threshold) st).similarSince =
        match m.reverse.find? (truthyQualifies threshold) with
        | some c => some c.timestamp
        | none => st.similarSince := by
  intro m
  induction m with
  | nil => intro st; simp
  | cons c m' ih =>
    intro st
    rw [List.foldl_cons, ih, List.reverse_cons, List.find?_append]
    cases hf : m'.reverse.find? (truthyQualifies threshold) with
    | some c₂ => simp [Option.or]
    | none =>
      cases hq : truthyQualifies threshold c <;>
        simp [Option.or, List.find?, hq, scanStep_similarSince]

theorem detectChanges_similarSince_eq_find (threshold : ℚ) (now : Int) (l : List Snapshot) :
    (detectChanges threshold now l).similarSince =
      match l.find? (truthyQualifies threshold) with
      | some c => some c.timestamp
      | none => none := by
  unfold detectChanges
  rw [foldl_scanStep_similarSince, List.reverse_reverse]
  cases l.find? (truthyQualifies threshold) <;> simp [initialScanState]

theorem truthyQualifies_eq_meets (threshold : ℚ) (hpos : 0 < threshold) :
    truthyQualifies threshold = meetsThreshold threshold := by
  funext c
  unfold truthyQualifies meetsThreshold
  cases c.similarity with
  | none => rfl
  | some s =>
    by_cases ht : threshold ≤ s
    · have hne : ¬ s = 0 := by
        intro h
        rw [h] at ht
        exact absurd (lt_of_lt_of_le hpos ht) (lt_irrefl 0)
      simp [ht, hne]
    · simp [ht]

theorem find?_first_min (p : Snapshot → Bool) :
    ∀ (l : List Snapshot), l.Pairwise (fun a b => a.timestamp ≤ b.timestamp) →
      ∀ c₀, l.find? p = some c₀ → ∀ c ∈ l, p c = true → c₀.timestamp ≤ c.timestamp := by
  intro l
  induction l with
  | nil => intro _ c₀ h; simp at h
  | cons a t ih =>
    intro hp c₀ hfind c hc hpc
    rw [List.pairwise_cons] at hp
    cases ha : p a with
    | true =>
      rw [List.find?_cons_of_pos _ ha] at hfind
      have hac : c₀ = a := by injection hfind with h; exact h.symm
      subst hac
      rcases List.mem_cons.mp hc with h | h
      · rw [h]
      · exact hp.1 c h
    | false =>
      rw [List.find?_cons_of_neg _ (by simp [ha])] at hfind
      rcases List.mem_cons.mp hc with h | h
      · rw [h] at hpc; rw [hpc] at ha; cases ha
      · exact ih hp.2 c₀ hfind c h hpc

/-- C5 counterexample: the claim quantifies over every threshold, but with a
threshold of 0 a snapshot whose score is exactly 0 meets the threshold while
the JS-truthiness guard skips it, so `similarSince` stays `none` instead of
becoming that oldest qualifying timestamp. -/
theorem similarSince_zero_threshold_cex :
    (detectChanges 0 100 [⟨5, some 0⟩]).similarSince = none ∧
    (([⟨5, some 0⟩] : List Snapshot).find? (meetsThreshold 0)).map
        (fun c => c.timestamp) = some 5 ∧
    (none : Option Int) ≠ some 5 := by
  refine ⟨?_, ?_, by decide⟩ <;>
    norm_num [detectChanges, scanStep, initialScanState, meetsThreshold, List.find?]

/-- C5 amended: for every strictly positive threshold (scores of exactly 0
are skipped by the JS-truthiness guard, which only matters for thresholds at
or below 0), the final `similarSince` is the timestamp of the first listed —
hence, for an ascending-by-time list, oldest — snapshot whose defined score
meets the threshold, and `none` when no snapshot qualifies; on a time-sorted
list that timestamp is minimal among all qualifying snapshots. -/
theorem similarSince_oldest_qualifying (threshold : ℚ) (now : Int) (l : List Snapshot)
    (hpos : 0 < threshold) :
    (detectChanges threshold now l).similarSince =
      (l.find? (meetsThreshold threshold)).map (fun c => c.timestamp) ∧
    (l.Pairwise (fun a b => a.timestamp ≤ b.timestamp) →
      ∀ t, (detectChanges threshold now l).similarSince = some t →
        ∀ c ∈ l, meetsThreshold threshold c = true → t ≤ c.timestamp) := by
  have he := detectChanges_similarSince_eq_find threshold now l
  rw [truthyQualifies_eq_meets threshold hpos] at he
  constructor
  · rw [he]; cases l.find? (meetsThreshold threshold) <;> simp
  · intro hp t ht c hc hqc
    rw [he] at ht
    cases hf : l.find? (meetsThreshold threshold) with
    | none => rw [hf] at ht; simp at ht
    | some c₀ =>
      rw [hf] at ht
      simp only [Option.map_some] at ht
      have h2 : c₀.timestamp = t := by injection ht
      rw [← h2]
      exact find?_first_min (meetsThreshold threshold) l hp c₀ hf c hc hqc

/-- C5 witness: threshold 0.85 on a two-snapshot list, where the oldest
qualifying snapshot is the first. -/
theorem similarSince_oldest_qualifying_witness :
    (0 : ℚ) < 0.85 ∧
    (detectChanges 0.85 50 [⟨1, some 0.9⟩, ⟨2, some 0.5⟩]).similarSince =
      (([⟨1, some 0.9⟩, ⟨2, some 0.5⟩] : List Snapshot).find?
          (meetsThreshold 0.85)).map (fun c => c.timestamp) :=
  ⟨by norm_num, (similarSince_oldest_qualifying 0.85 50 _ (by norm_num)).1⟩

/-- C3 counterexample: on the spec's own test vector the single reported
event is not the claimed one — the backward walk compares t3's score 0.60
against the next-newer snapshot t4 (score 0.90), so the event pairs t3 with
t4 and its drop is 0.30, not t2 with drop 0.18. -/
theorem detectChanges_spec_vector_cex :
    (detectChanges 0.85 100
        [⟨1, some 0.95⟩, ⟨2, some 0.78⟩, ⟨3, some 0.6⟩, ⟨4, some 0.9⟩]).significantChanges ≠
      [⟨3, 2, 0.18⟩] := by
  norm_num [detectChanges, initialScanState, scanStep]

/-- C3 amended: for the ascending-by-time input
[(t1, 0.95), (t2, 0.78), (t3, 0.60), (t4, 0.90)] with threshold 0.85 the
scan reports exactly one significant-change event, between t3 and t4 with
similarityDrop 0.30 (= 0.90 - 0.60), and similarSince = t1. -/
theorem detectChanges_spec_vector (t1 t2 t3 t4 now : Int)
    (h12 : t1 < t2) (h23 : t2 < t3) (h34 : t3 < t4) :
    (detectChanges 0.85 now
        [⟨t1, some 0.95⟩, ⟨t2, some 0.78⟩, ⟨t3, some 0.6⟩, ⟨t4, some 0.9⟩]).significantChanges =
      [⟨t3, t4, 0.3⟩] ∧
    (detectChanges 0.85 now
        [⟨t1, some 0.95⟩, ⟨t2, some 0.78⟩, ⟨t3, some 0.6⟩, ⟨t4, some 0.9⟩]).similarSince =
      some t1 := by
  norm_num [detectChanges, initialScanState, scanStep]

/-- C3 witness: the vector at timestamps 1 < 2 < 3 < 4 with now = 100. -/
theorem detectChanges_spec_vector_witness :
    ((1 : Int) < 2 ∧ (2 : Int) < 3 ∧ (3 : Int) < 4) ∧
    ((detectChanges 0.85 100
        [⟨1, some 0.95⟩, ⟨2, some 0.78⟩, ⟨3, some 0.6⟩, ⟨4, some 0.9⟩]).significantChanges =
      [⟨3, 4, 0.3⟩] ∧
    (detectChanges 0.85 100
        [⟨1, some 0.95⟩, ⟨2, some 0.78⟩, ⟨3, some 0.6⟩, ⟨4, some 0.9⟩]).similarSince =
      some 1) :=
  ⟨⟨by decide, by decide, by decide⟩,
    detectChanges_spec_vector 1 2 3 4 100 (by decide) (by decide) (by decide)⟩

/-- C4 counterexample: a snapshot whose defined score is exactly 0 falls out
of the JS-truthiness guard `if (capture.similarity)`: although the drop from
the initial previousSimilarity of 1 exceeds 0.15 (1 - 0 > 0.15), no event is
recorded and the previous-similarity/previous-date registers keep their
initial values 1 and now. -/
theorem scan_zero_similarity_skipped_cex :
    (0.15 : ℚ) < 1 - 0 ∧
    (detectChanges 0.85 100 [⟨5, some 0⟩]).significantChanges = [] ∧
    (detectChanges 0.85 100 [⟨5, some 0⟩]).previousSimilarity = 1 ∧
    (detectChanges 0.85 100 [⟨5, some 0⟩]).previousDate = 100 := by
  refine ⟨by norm_num, ?_, ?_, ?_⟩ <;>
    norm_num [detectChanges, scanStep, initialScanState]

theorem foldl_scanStep_spec (threshold : ℚ) :
    ∀ (m : List Snapshot) (st : ScanState),
      (m.foldl (scanStep threshold) st).significantChanges =
        st.significantChanges ++
          pairEvents st.previousSimilarity st.previousDate (truthySims m) ∧
      (m.foldl (scanStep threshold) st).previousSimilarity =
        (lastPair st.previousSimilarity st.previousDate (truthySims m)).1 ∧
      (m.foldl (scanStep threshold) st).previousDate =
        (lastPair st.previousSimilarity st.previousDate (truthySims m)).2 := by
  intro m
  induction m with
  | nil => intro st; simp [truthySims, pairEvents, lastPair]
  | cons c m' ih =>
    intro st
    rw [List.foldl_cons]
    cases hs : c.similarity with
    | none =>
      have hstep : scanStep threshold st c = st := by simp [scanStep, hs]
      have htr : truthySims (c :: m') = truthySims m' := by
        simp [truthySims, List.filterMap_cons, hs]
      rw [hstep, htr]
      exact ih st
    | some s =>
      by_cases h0 : s = 0
      · have hstep : scanStep threshold st c = st := by simp [scanStep, hs, h0]
        have htr : truthySims (c :: m') = truthySims m' := by
          simp [truthySims, List.filterMap_cons, hs, h0]
        rw [hstep, htr]
        exact ih st
      · have htr : truthySims (c :: m') = (c.timestamp, s) :: truthySims m' := by
          simp [truthySims, List.filterMap_cons, hs, h0]
        have hstep : scanStep threshold st c =
            { significantChanges :=
                if 0.15 < st.previousSimilarity - s then
                  st.significantChanges ++
                    [⟨c.timestamp, st.previousDate, st.previousSimilarity - s⟩]
                else st.significantChanges
              similarSince := if threshold ≤ s then some c.timestamp else st.similarSince
              previousSimilarity := s
              previousDate := c.timestamp } := by
          simp [scanStep, hs, h0]
        rw [hstep, htr]
        obtain ⟨ih1, ih2, ih3⟩ := ih
          { significantChanges :=
              if 0.15 < st.previousSimilarity - s then
                st.significantChanges ++
                  [⟨c.timestamp, st.previousDate, st.previousSimilarity - s⟩]
              else st.significantChanges
            similarSince := if threshold ≤ s then some c.timestamp else st.similarSince
            previousSimilarity := s
            previousDate := c.timestamp }
        refine ⟨?_, ?_, ?_⟩
        · rw [ih1]
          simp only [pairEvents]
          by_cases hdrop : 0.15 < st.previousSimilarity - s <;>
            simp [hdrop, List.append_assoc]
        · rw [ih2]
          simp [lastPair]
        · rw [ih3]
          simp [lastPair]

/-- C4 amended: over the backward (newest-to-oldest) walk, restricted to the
snapshots the truthiness guard actually processes — those with a defined and
NONZERO similarity score (a score of exactly 0 is skipped like an undefined
one) — each processed snapshot is compared against the previously processed
pair, starting from previousSimilarity = 1 and previousTimestamp = now: an
event {date, otherDate, similarityDrop} is recorded exactly when the drop
exceeds 0.15, and each processed snapshot becomes the new previous pair. -/
theorem scan_pairwise_characterization (threshold : ℚ) (now : Int) (l : List Snapshot) :
    (detectChanges threshold now l).significantChanges =
      pairEvents 1 now (truthySims l.reverse) ∧
    (detectChanges threshold now l).previousSimilarity =
      (lastPair 1 now (truthySims l.reverse)).1 ∧
    (detectChanges threshold now l).previousDate =
      (lastPair 1 now (truthySims l.reverse)).2 := by
  have h := foldl_scanStep_spec threshold l.reverse (initialScanState now)
  simpa [detectChanges, initialScanState] using h

theorem fetchLoop_success (behavior : Nat → FetchOutcome) (url : String)
    (errs : Nat → String) (k : Nat) (body : String)
    (hfail : ∀ a, a < k → behavior a = FetchOutcome.failure (errs a))
    (hsucc : behavior k = FetchOutcome.success body) :
    ∀ (remaining attempt : Nat) (lastError : Option String),
      attempt ≤ k → k < attempt + remaining →
      fetchLoop behavior url remaining attempt lastError = (Except.ok body, k + 1) := by
  intro remaining
  induction remaining with
  | zero => intro attempt lastError h1 h2; omega
  | succ r ih =>
    intro attempt lastError h1 h2
    by_cases hak : attempt = k
    · subst hak
      simp [fetchLoop, hsucc]
    · have hlt : attempt < k := lt_of_le_of_ne h1 hak
      simp only [fetchLoop, hfail attempt hlt]
      exact ih (attempt + 1) (some (errs attempt)) hlt (by omega)

theorem fetchLoop_exhaust (behavior : Nat → FetchOutcome) (url : String)
    (errs : Nat → String)
    (hfail : ∀ a, behavior a = FetchOutcome.failure (errs a)) :
    ∀ (remaining attempt : Nat) (lastError : Option String),
      fetchLoop behavior url (remaining + 1) attempt lastError =
        (Except.error (FetchError.cause (errs (attempt + remaining))), attempt + remaining + 1) := by
  intro remaining
  induction remaining with
  | zero =>
    intro attempt lastError
    simp [fetchLoop, hfail attempt]
  | succ r ih =>
    intro attempt lastError
    have step : fetchLoop behavior url (r + 1 + 1) attempt lastError =
        fetchLoop behavior url (r + 1) (attempt + 1) (some (errs attempt)) := by
      conv_lhs => rw [fetchLoop]
      simp only [hfail attempt]
    rw [step, ih (attempt + 1) (some (errs attempt))]
    have e1 : attempt + 1 + r = attempt + (r + 1) := by omega
    rw [e1]

theorem fetchLoop_count_le (behavior : Nat → FetchOutcome) (url : String) :
    ∀ (remaining attempt : Nat) (lastError : Option String),
      (fetchLoop behavior url remaining attempt lastError).2 ≤ attempt + remaining := by
  intro remaining
  induction remaining with
  | zero => intro attempt lastError; simp [fetchLoop]
  | succ r ih =>
    intro attempt lastError
    cases hb : behavior attempt with
    | success body => simp [fetchLoop, hb]
    | rateLimited h =>
      simp only [fetchLoop, hb]
      have := ih (attempt + 1) lastError
      omega
    | failure e =>
      simp only [fetchLoop, hb]
      have := ih (attempt + 1) (some e)
      omega

/-- C8: with a transport failing the first k < retryAttempts attempts and
succeeding on attempt k, `fetch` returns that response after exactly k + 1
attempts; with an always-failing transport it makes exactly retryAttempts
attempts and raises the error of the last attempt (the synthesized
exhaustion error would be raised only when no cause was ever captured, i.e.
when every attempt was a 429 or the budget is 0); and it never issues more
than retryAttempts attempts. -/
theorem fetch_retry_behavior (behavior : Nat → FetchOutcome) (errs : Nat → String)
    (url : String) (config : RateLimiterConfig) (k : Nat) (body : String) :
    (k < config.retryAttempts →
      (∀ a, a < k → behavior a = FetchOutcome.failure (errs a)) →
      behavior k = FetchOutcome.success body →
      fetchModel behavior config url = (Except.ok body, k + 1)) ∧
    ((∀ a, behavior a = FetchOutcome.failure (errs a)) → 1 ≤ config.retryAttempts →
      fetchModel behavior config url =
        (Except.error (FetchError.cause (errs (config.retryAttempts - 1))),
          config.retryAttempts)) ∧
    (fetchModel behavior config url).2 ≤ config.retryAttempts := by
  refine ⟨fun hk hfail hsucc => ?_, fun hfail hpos => ?_, ?_⟩
  · exact fetchLoop_success behavior url errs k body hfail hsucc
      config.retryAttempts 0 none (Nat.zero_le k) (by omega)
  · obtain ⟨r, hr⟩ : ∃ r, config.retryAttempts = r + 1 :=
      ⟨config.retryAttempts - 1, by omega⟩
    unfold fetchModel
    rw [hr]
    have h := fetchLoop_exhaust behavior url errs hfail r 0 none
    simpa using h
  · have h := fetchLoop_count_le behavior url config.retryAttempts 0 none
    simpa using h

/-- C8 witness: a transport failing once then succeeding returns the success
after 2 of the 3 budgeted attempts; an always-failing transport exhausts a
budget of 2 attempts and surfaces the last cause. -/
theorem fetch_retry_behavior_witness :
    ((1 : Nat) < 3 ∧
      fetchModel
          (fun a => if a < 1 then FetchOutcome.failure "boom" else FetchOutcome.success "ok")
          ⟨15, 3, 5000⟩ "u" = (Except.ok "ok", 2)) ∧
    ((1 : Nat) ≤ 2 ∧
      fetchModel (fun _ => FetchOutcome.failure "down") ⟨15, 2, 5000⟩ "u" =
        (Except.error (FetchError.cause "down"), 2)) :=
  ⟨⟨by decide,
      (fetch_retry_behavior
          (fun a => if a < 1 then FetchOutcome.failure "boom" else FetchOutcome.success "ok")
          (fun _ => "boom") "u" ⟨15, 3, 5000⟩ 1 "ok").1
        (by decide) (by decide) (by decide)⟩,
    ⟨by decide,
      (fetch_retry_behavior (fun _ => FetchOutcome.failure "down")
          (fun _ => "down") "u" ⟨15, 2, 5000⟩ 0 "unused").2.1
        (fun _ => rfl) (by decide)⟩⟩

theorem countWindow_append (l₁ l₂ : List Int) (w : Int) :
    countWindow (l₁ ++ l₂) w = countWindow l₁ w + countWindow l₂ w := by
  simp [countWindow, List.filter_append]

theorem countWindow_cons (a : Int) (l : List Int) (w : Int) :
    countWindow (a :: l) w = (if inWindow w a then 1 else 0) + countWindow l w := by
  by_cases h : inWindow w a <;> simp [countWindow, List.filter_cons, h] <;> try omega

theorem countWindow_cons_split (x : Int) (l : List Int) (w : Int) :
    countWindow (x :: l) w = countWindow [x] w + countWindow l w := by
  rw [countWindow_cons, countWindow_cons x [] w]
  rfl

theorem countWindow_singleton_le (a w : Int) : countWindow [a] w ≤ 1 := by
  by_cases h : inWindow w a <;> simp [countWindow, List.filter_cons, h]

theorem countWindow_le_length (l : List Int) (w : Int) : countWindow l w ≤ l.length :=
  List.length_filter_le _ _

theorem countWindow_filter_le (l : List Int) (p : Int → Bool) (w : Int) :
    countWindow (l.filter p) w ≤ countWindow l w :=
  List.Sublist.length_le (List.Sublist.filter _ (List.filter_sublist l))

theorem countWindow_split (l : List Int) (p : Int → Bool) (w : Int) :
    countWindow l w =
      countWindow (l.filter p) w + countWindow (l.filter (fun t => ! p t)) w := by
  induction l with
  | nil => rfl
  | cons a t ih =>
    by_cases hp : p a <;>
      simp only [List.filter_cons, hp, Bool.not_true, Bool.not_false, if_pos, if_neg,
        Bool.false_eq_true, not_false_eq_true, countWindow_cons, ite_true, ite_false] <;>
      by_cases hw : inWindow w a <;> simp [countWindow_cons, hw, ih] <;> omega

theorem countWindow_eq_zero (l : List Int) (w : Int)
    (h : ∀ t ∈ l, inWindow w t = false) : countWindow l w = 0 := by
  unfold countWindow
  rw [List.filter_eq_nil_iff.mpr (fun a ha => by simp [h a ha])]
  rfl

theorem inWindow_true_iff (w t : Int) : inWindow w t = true ↔ w < t ∧ t ≤ w + 60000 := by
  simp [inWindow]

theorem inWindow_false_of_gt (w t : Int) (h : w + 60000 < t) : inWindow w t = false := by
  simp [inWindow]
  omega

theorem inWindow_false_of_le (w t : Int) (h : t ≤ w) : inWindow w t = false := by
  simp [inWindow]
  omega

theorem purgeWindow_mem (ts : List Int) (now t : Int) (h : t ∈ purgeWindow ts now) :
    t ∈ ts ∧ now - 60000 < t := by
  simpa [purgeWindow, List.mem_filter] using h

theorem purgeWindow_length_le (maxReq : Nat) (ts : List Int) (now lastIssue : Int)
    (hle : ∀ t ∈ ts, t ≤ lastIssue) (hnow : lastIssue ≤ now)
    (hwin : ∀ v, countWindow ts v ≤ maxReq) :
    (purgeWindow ts now).length ≤ maxReq := by
  have hall : ∀ t ∈ purgeWindow ts now, inWindow (now - 60000) t = true := by
    intro t ht
    obtain ⟨hts, hgt⟩ := purgeWindow_mem ts now t ht
    have h1 : t ≤ lastIssue := hle t hts
    rw [inWindow_true_iff]
    omega
  have heq : (purgeWindow ts now).filter (inWindow (now - 60000)) = purgeWindow ts now :=
    List.filter_eq_self.mpr hall
  have h1 : countWindow (purgeWindow ts now) (now - 60000) = (purgeWindow ts now).length := by
    unfold countWindow
    rw [heq]
  have h2 : countWindow (purgeWindow ts now) (now - 60000) ≤ countWindow ts (now - 60000) :=
    countWindow_filter_le ts _ _
  have h3 := hwin (now - 60000)
  omega

theorem admitOne_low (maxReq : Nat) (ts : List Int) (now : Int)
    (h : ¬ maxReq ≤ (purgeWindow ts now).length) :
    admitOne maxReq ts now = (purgeWindow ts now ++ [now], now) := by
  simp [admitOne, h]

theorem admitOne_high (maxReq : Nat) (ts : List Int) (now oldest : Int) (k2 : List Int)
    (hk : purgeWindow ts now = oldest :: k2)
    (h : maxReq ≤ (purgeWindow ts now).length) :
    admitOne maxReq ts now = (purgeWindow ts now ++ [oldest + 60000], oldest + 60000) := by
  have hmem : oldest ∈ purgeWindow ts now := by
    rw [hk]
    exact List.mem_cons_self _ _
  have hgt : now - 60000 < oldest := (purgeWindow_mem ts now oldest hmem).2
  have hpos : 0 < 60000 - (now - oldest) := by omega
  have heq : now + (60000 - (now - oldest)) = oldest + 60000 := by omega
  unfold admitOne
  rw [if_pos h, hk]
  dsimp only
  rw [if_pos hpos, heq]

theorem admitOne_now_le (maxReq : Nat) (ts : List Int) (now : Int) :
    now ≤ (admitOne maxReq ts now).2 := by
  by_cases h : maxReq ≤ (purgeWindow ts now).length
  · cases hk : purgeWindow ts now with
    | nil =>
      unfold admitOne
      rw [if_pos h, hk]
    | cons oldest k2 =>
      rw [admitOne_high maxReq ts now oldest k2 hk h]
      have hmem : oldest ∈ purgeWindow ts now := by
        rw [hk]
        exact List.mem_cons_self _ _
      have hgt : now - 60000 < oldest := (purgeWindow_mem ts now oldest hmem).2
      simp only
      omega
  · rw [admitOne_low maxReq ts now h]

theorem runAdmissions_ge (maxReq : Nat) :
    ∀ (arrivals ts : List Int) (lastIssue e : Int),
      e ∈ runAdmissions maxReq arrivals ts lastIssue → lastIssue ≤ e := by
  intro arrivals
  induction arrivals with
  | nil => intro ts lastIssue e h; simp [runAdmissions] at h
  | cons a rest ih =>
    intro ts lastIssue e h
    simp only [runAdmissions, List.mem_cons] at h
    have hstep : lastIssue ≤ (admitOne maxReq ts (max a lastIssue)).2 :=
      le_trans (le_max_right a lastIssue) (admitOne_now_le maxReq ts (max a lastIssue))
    rcases h with h | h
    · rw [h]; exact hstep
    · exact le_trans hstep (ih _ _ _ h)

theorem window_bound_step (maxReq : Nat) (ts R K : List Int) (nowv issue w : Int)
    (hKdef : K = purgeWindow ts nowv)
    (hissue_ge : nowv ≤ issue)
    (hRge : ∀ e ∈ R, issue ≤ e)
    (hrec : countWindow ((K ++ [issue]) ++ R) w ≤ maxReq)
    (hwin : countWindow ts w ≤ maxReq) :
    countWindow (ts ++ issue :: R) w ≤ maxReq := by
  have hsplit : countWindow ts w =
      countWindow K w + countWindow (ts.filter (fun t => ! decide (nowv - 60000 < t))) w := by
    rw [hKdef]
    exact countWindow_split ts _ w
  by_cases hD : countWindow (ts.filter (fun t => ! decide (nowv - 60000 < t))) w = 0
  · rw [countWindow_append, countWindow_cons_split]
    rw [countWindow_append, countWindow_append] at hrec
    omega
  · obtain ⟨p, hp⟩ := List.exists_mem_of_length_pos (Nat.pos_of_ne_zero hD)
    have hp1 := (List.mem_filter.mp hp).1
    have hp2 := (List.mem_filter.mp hp).2
    have hp3 := (List.mem_filter.mp hp1).2
    have hpold : ¬ (nowv - 60000 < p) := by simpa using hp3
    have hwlt : w < p := ((inWindow_true_iff w p).mp hp2).1
    have hz : countWindow (issue :: R) w = 0 := by
      apply countWindow_eq_zero
      intro e he
      rcases List.mem_cons.mp he with h | h
      · rw [h]
        exact inWindow_false_of_gt w issue (by omega)
      · exact inWindow_false_of_gt w e (by have := hRge e h; omega)
    rw [countWindow_append, hz]
    omega

theorem runAdmissions_window_bound (maxReq : Nat) (hmax : 1 ≤ maxReq) :
    ∀ (arrivals ts : List Int) (lastIssue : Int),
      (∀ t ∈ ts, t ≤ lastIssue) →
      (∀ v, countWindow ts v ≤ maxReq) →
      ∀ w, countWindow (ts ++ runAdmissions maxReq arrivals ts lastIssue) w ≤ maxReq := by
  intro arrivals
  induction arrivals with
  | nil =>
    intro ts lastIssue hle hwin w
    simpa [runAdmissions] using hwin w
  | cons a rest ih =>
    intro ts lastIssue hle hwin w
    have hln : lastIssue ≤ max a lastIssue := le_max_right a lastIssue
    have hkle : ∀ x ∈ purgeWindow ts (max a lastIssue), x ≤ lastIssue :=
      fun x hx => hle x (purgeWindow_mem ts _ x hx).1
    have hklen : (purgeWindow ts (max a lastIssue)).length ≤ maxReq :=
      purgeWindow_length_le maxReq ts (max a lastIssue) lastIssue hle hln hwin
    by_cases hbig : maxReq ≤ (purgeWindow ts (max a lastIssue)).length
    · cases hk : purgeWindow ts (max a lastIssue) with
      | nil =>
        exfalso
        rw [hk] at hbig
        simp at hbig
        omega
      | cons oldest k2 =>
        have hA := admitOne_high maxReq ts (max a lastIssue) oldest k2 hk hbig
        have hmem : oldest ∈ purgeWindow ts (max a lastIssue) := by
          rw [hk]
          exact List.mem_cons_self _ _
        have hgt : (max a lastIssue) - 60000 < oldest := (purgeWindow_mem ts _ oldest hmem).2
        have hle2 : ∀ t ∈ purgeWindow ts (max a lastIssue) ++ [oldest + 60000],
            t ≤ oldest + 60000 := by
          intro t ht
          rcases List.mem_append.mp ht with h | h
          · have h1 := hkle t h
            omega
          · simp at h
            omega
        have hwin2 : ∀ v,
            countWindow (purgeWindow ts (max a lastIssue) ++ [oldest + 60000]) v ≤ maxReq := by
          intro v
          rw [countWindow_append]
          by_cases hv : inWindow v (oldest + 60000) = true
          · have hov : oldest ≤ v := by
              have h1 := (inWindow_true_iff v (oldest + 60000)).mp hv
              omega
            have hc1 : countWindow [oldest + 60000] v ≤ 1 := countWindow_singleton_le _ _
            have hkcons : countWindow (purgeWindow ts (max a lastIssue)) v =
                countWindow k2 v := by
              rw [hk, countWindow_cons, inWindow_false_of_le v oldest hov]
              simp
            have hlen2 : countWindow k2 v ≤ k2.length := countWindow_le_length k2 v
            have hklen2 : k2.length + 1 ≤ maxReq := by
              rw [hk] at hklen
              simpa using hklen
            omega
          · have hc0 : countWindow [oldest + 60000] v = 0 := by
              rw [countWindow_cons]
              simp [hv, countWindow]
            have hfl : countWindow (purgeWindow ts (max a lastIssue)) v ≤ countWindow ts v :=
              countWindow_filter_le ts _ v
            have h2 := hwin v
            omega
        have hRge : ∀ e ∈ runAdmissions maxReq rest
            (purgeWindow ts (max a lastIssue) ++ [oldest + 60000]) (oldest + 60000),
            oldest + 60000 ≤ e :=
          fun e he => runAdmissions_ge maxReq rest _ _ e he
        have hrec := ih (purgeWindow ts (max a lastIssue) ++ [oldest + 60000])
          (oldest + 60000) hle2 hwin2 w
        simp only [runAdmissions, hA]
        exact window_bound_step maxReq ts
          (runAdmissions maxReq rest (purgeWindow ts (max a lastIssue) ++ [oldest + 60000])
            (oldest + 60000))
          (purgeWindow ts (max a lastIssue)) (max a lastIssue) (oldest + 60000) w rfl
          (by omega) hRge hrec (hwin w)
    · have hA := admitOne_low maxReq ts (max a lastIssue) hbig
      have hle2 : ∀ t ∈ purgeWindow ts (max a lastIssue) ++ [max a lastIssue],
          t ≤ max a lastIssue := by
        intro t ht
        rcases List.mem_append.mp ht with h | h
        · exact le_trans (hkle t h) hln
        · simp at h
          omega
      have hwin2 : ∀ v,
          countWindow (purgeWindow ts (max a lastIssue) ++ [max a lastIssue]) v ≤ maxReq := by
        intro v
        rw [countWindow_append]
        have h1 : countWindow (purgeWindow ts (max a lastIssue)) v ≤
            (purgeWindow ts (max a lastIssue)).length := countWindow_le_length _ _
        have h2 : countWindow [max a lastIssue] v ≤ 1 := countWindow_singleton_le _ _
        have h3 : (purgeWindow ts (max a lastIssue)).length < maxReq := Nat.lt_of_not_le hbig
        omega
      have hRge : ∀ e ∈ runAdmissions maxReq rest
          (purgeWindow ts (max a lastIssue) ++ [max a lastIssue]) (max a lastIssue),
          max a lastIssue ≤ e :=
        fun e he => runAdmissions_ge maxReq rest _ _ e he
      have hrec := ih (purgeWindow ts (max a lastIssue) ++ [max a lastIssue])
        (max a lastIssue) hle2 hwin2 w
      simp only [runAdmissions, hA]
      exact window_bound_step maxReq ts
        (runAdmissions maxReq rest (purgeWindow ts (max a lastIssue) ++ [max a lastIssue])
          (max a lastIssue))
        (purgeWindow ts (max a lastIssue)) (max a lastIssue) (max a lastIssue) w rfl
        (le_refl _) hRge hrec (hwin w)

/-- C7 counterexample: with maxRequestsPerMinute = 0 the kept list is empty
at the admission check, the JS code reads `requestTimestamps[0]` as
undefined, the NaN wait fails the `> 0` guard, and the request is admitted
immediately — so the recorded timeline [0] has one entry inside the trailing
window ending at its issuance, exceeding the configured maximum of 0. -/
theorem rateLimiter_zero_budget_cex :
    runAdmissions 0 [0] [] 0 = [0] ∧
    countWindow [0] (-1) = 1 ∧
    ¬ countWindow [0] (-1) ≤ 0 := by
  refine ⟨by decide, by decide, by decide⟩

/-- C7 amended: for every fetcher configured with maxRequestsPerMinute ≥ 1
and every sequence of sequentially issued admissions, the recorded issuance
timeline never holds more than maxRequestsPerMinute entries inside any
trailing 60000 ms window (half open on the left, matching the purge's strict
age comparison); the purge-then-check-then-wait behaviour itself is the
definition of `admitOne`. -/
theorem rateLimiter_window_bound (maxReq : Nat) (hmax : 1 ≤ maxReq)
    (arrivals : List Int) (start : Int) (w : Int) :
    countWindow (runAdmissions maxReq arrivals [] start) w ≤ maxReq := by
  have h := runAdmissions_window_bound maxReq hmax arrivals [] start
    (by intro t ht; simp at ht) (by intro v; simp [countWindow]) w
  simpa using h

/-- C7 witness: one admission budget, two back-to-back requests. -/
theorem rateLimiter_window_bound_witness :
    (1 : Nat) ≤ 1 ∧ countWindow (runAdmissions 1 [0, 0] [] 0) 0 ≤ 1 :=
  ⟨le_refl 1, rateLimiter_window_bound 1 (le_refl 1) [0, 0] 0 0⟩
